import Mathlib

/-!
Verification of the extraction-validation core of
`extract_from_pdfs/templates/08_calculate_validation_metrics.py`.

The script compares automated structured extraction against ground-truth
annotations and derives precision / recall / F1 metrics.  This file gives a
shallow embedding of its comparison engine:

* `Value` is the JSON-like value tree the script manipulates (loaded with
  `json.load`, so values are null / bool / number / string / list / object).
* Numbers are embedded as rationals: the script's arithmetic on values is
  limited to subtraction, absolute value and comparisons of small decimal
  numbers, which rationals model exactly.
* Fallible Python code (code that can raise `TypeError` / `AttributeError`)
  is embedded in `Option`; `none` means the corresponding Python call raises.
-/

namespace PdfVal

/-- JSON-like values, as produced by `json.load` in the script. -/
inductive Value where
  | null
  | bool (b : Bool)
  | num (q : Rat)
  | str (s : String)
  | list (xs : List Value)
  | dict (fields : List (String × Value))

/-- Comparison configuration assembled in `main` from the command line:
`numeric_tolerance`, `fuzzy_strings`, `list_order_matters`. -/
structure Config where
  numeric_tolerance : Rat
  fuzzy_strings : Bool
  list_order_matters : Bool

/-- Result dictionary of one comparison: keys `tp`, `fp`, `fn`, and — only for
`compare_boolean`, which returns a four-key dictionary — `tn`.  `tn = none`
models a three-key dictionary without the `tn` entry. -/
structure Count where
  tp : Nat
  fp : Nat
  fn : Nat
  tn : Option Nat
deriving DecidableEq, Repr

/-- Canonical form of a hashable Python value, quotienting by Python `==` on
scalars: `True == 1`, `False == 0`, numbers compare by value.  Lists and
dictionaries are unhashable (`canon` returns `none` for them), matching the
`TypeError` raised when they are put into a `set`. -/
inductive HashV where
  | hnull
  | hnum (q : Rat)
  | hstr (s : String)
deriving DecidableEq, Repr

/-- Canonical form used both for Python `==` on scalars and for set
membership in `compare_list`; `none` for unhashable values (list, dict). -/
def canon : Value → Option HashV
  | .null => some .hnull
  | .bool b => some (.hnum (if b then 1 else 0))
  | .num q => some (.hnum q)
  | .str s => some (.hstr s)
  | .list _ => none
  | .dict _ => none

/-- Python truthiness of a value (used by `compare_boolean` and by the
`automated or {}` coercion in `compare_field`). -/
def pyTruthy : Value → Bool
  | .null => false
  | .bool b => b
  | .num q => decide (q ≠ 0)
  | .str s => !s.isEmpty
  | .list xs => !xs.isEmpty
  | .dict fs => !fs.isEmpty

/-- Python `==` between two values.  Scalars compare through their canonical
form (`True == 1` etc.); lists compare element-wise.  Dictionaries are
compared key-position-wise here, which is coarser than Python's key-set
comparison; in this script `pyEq` is only reached from `compare_boolean`
(truth is a bool) and from the numeric fallback (truth is a number), so the
dict/dict and list/list cases are never exercised against each other with
both sides structured. -/
def pyEq : Value → Value → Bool
  | .list [], .list [] => true
  | .list (x :: xs), .list (y :: ys) => pyEq x y && pyEq (.list xs) (.list ys)
  | .dict [], .dict [] => true
  | .dict ((k, v) :: xs), .dict ((k', v') :: ys) =>
      k == k' && pyEq v v' && pyEq (.dict xs) (.dict ys)
  | a, b =>
      match canon a, canon b with
      | some u, some v => decide (u = v)
      | _, _ => false

/-- Fuzzy normalization of a string: `' '.join(s.lower().split())` —
lower-case and collapse whitespace runs. -/
def fuzzyCollapse (s : String) : String :=
  " ".intercalate ((s.toLower.split (fun c => c.isWhitespace)).filter (fun t => !t.isEmpty))

/-- Textual form of a rational, standing in for Python's `str()` of a
number.  The exact spelling of non-integral numbers differs from Python's
decimal rendering; no theorem below depends on it (it is only reachable for
non-string list elements under fuzzy matching, or non-string values compared
against a string truth). -/
def ratStr (q : Rat) : String :=
  if q.den = 1 then toString q.num else toString q.num ++ "/" ++ toString q.den

/-- Textual form of a value, standing in for Python's `str()`:
`normalize_string` applies it to non-string inputs.  Containers are rendered
with their elements' `reprStr`-like forms, approximating Python's rendering;
no theorem below depends on the container or non-integral spellings. -/
def pyStr : Value → String
  | .null => "None"
  | .bool b => if b then "True" else "False"
  | .num q => ratStr q
  | .str s => s
  | .list xs =>
      "[" ++ ", ".intercalate (xs.attach.map (fun p => pyStr p.1)) ++ "]"
  | .dict fs =>
      "\x7b" ++
        ", ".intercalate (fs.attach.map (fun p => "\x27" ++ p.1.1 ++ "\x27: " ++ pyStr p.1.2)) ++
        "\x7d"
decreasing_by
  all_goals
    first
      | (have h := List.sizeOf_lt_of_mem p.2; simp at *; omega)
      | (obtain ⟨⟨a, b⟩, hp⟩ := p
         have h := List.sizeOf_lt_of_mem hp
         simp at *
         omega)

/-- Embedding of `normalize_string(s, fuzzy)`: non-strings are coerced with
`str()` (and not fuzzily normalized — the source returns `str(s)` before the
fuzzy branch); strings are collapsed only when `fuzzy` is set. -/
def normalize_string (v : Value) (fuzzy : Bool) : String :=
  match v with
  | .str s => if fuzzy then fuzzyCollapse s else s
  | v => pyStr v

/-- Embedding of `compare_boolean(automated, truth)`.  Note the four-key
result dictionary: `tn` is present (`some _`). -/
def compare_boolean (automated truth : Value) : Count :=
  if pyEq automated truth then ⟨1, 0, 0, some 0⟩
  else if pyTruthy automated && !pyTruthy truth then ⟨0, 1, 0, some 0⟩
  else if !pyTruthy automated && pyTruthy truth then ⟨0, 0, 1, some 0⟩
  else ⟨0, 0, 0, some 1⟩

/-- Decimal core accepted by `float()`: digits, optionally with a decimal
point (at least one digit overall). -/
def parseDecCore (cs : List Char) : Option Rat :=
  let digitsVal : List Char → Nat := fun ds => ds.foldl (fun n c => 10 * n + (c.toNat - 48)) 0
  let intPart := cs.takeWhile (fun c => c.isDigit)
  let rest := cs.dropWhile (fun c => c.isDigit)
  match rest with
  | [] => if intPart.isEmpty then none else some (digitsVal intPart)
  | '.' :: rest2 =>
    let fracPart := rest2.takeWhile (fun c => c.isDigit)
    let rest3 := rest2.dropWhile (fun c => c.isDigit)
    if rest3.isEmpty && (!intPart.isEmpty || !fracPart.isEmpty) then
      some ((digitsVal intPart : Rat) + (digitsVal fracPart : Rat) / ((10 : Rat) ^ fracPart.length))
    else none
  | _ => none

/-- Stand-in for Python's built-in `float(s)` on strings: optional
surrounding whitespace and sign, then a plain decimal literal.  Exponent
and special forms (`inf`, `nan`, underscores) are not modelled; `none`
models the `ValueError` raised on non-numeric strings. -/
def pyFloatParse (s : String) : Option Rat :=
  match ((s.toList.dropWhile (fun c => c.isWhitespace)).reverse.dropWhile
      (fun c => c.isWhitespace)).reverse with
  | '+' :: cs => parseDecCore cs
  | '-' :: cs => (parseDecCore cs).map (fun q => -q)
  | cs => parseDecCore cs

/-- Stand-in for Python's `float(v)` on non-None values: numbers and booleans
convert, strings parse, lists/dicts raise `TypeError` (`none`). -/
def pyFloatOf : Value → Option Rat
  | .bool b => some (if b then 1 else 0)
  | .num q => some q
  | .str s => pyFloatParse s
  | _ => none

/-- Embedding of `compare_numeric(automated, truth, tolerance)`.  A
`ValueError`/`TypeError` while converting either side falls back to plain
Python equality; otherwise `None` sides short-circuit, and numbers compare
within the tolerance (strict equality when `tolerance` is not positive). -/
def compare_numeric (automated truth : Value) (tolerance : Rat) : Bool :=
  let fa : Option (Option Rat) :=
    match automated with
    | .null => some none
    | a => (pyFloatOf a).map some
  let ft : Option (Option Rat) :=
    match truth with
    | .null => some none
    | t => (pyFloatOf t).map some
  match fa, ft with
  | some a?, some t? =>
    match a?, t? with
    | none, none => true
    | none, some _ => false
    | some _, none => false
    | some a, some t => if tolerance > 0 then decide (|a - t| ≤ tolerance) else decide (a = t)
  | _, _ => pyEq automated truth

/-- Embedding of `compare_string(automated, truth, fuzzy)`. -/
def compare_string (automated truth : Value) (fuzzy : Bool) : Bool :=
  match automated, truth with
  | .null, .null => true
  | .null, _ => false
  | _, .null => false
  | a, t => normalize_string a fuzzy == normalize_string t fuzzy

/-- Embedding of `compare_list(automated, truth, order_matters, fuzzy)`.
`None` becomes the empty list and a non-list is wrapped as a one-element
list.  Ordered mode zips positionally and counts string-equal pairs, with
`max 0` length differences (natural subtraction).  Unordered mode builds
Python sets: with `fuzzy`, sets of normalized strings; without, sets of the
raw elements — which raises `TypeError` (`none`) when an element is
unhashable (a list or dict). -/
def compare_list (automated truth : Value) (order_matters fuzzy : Bool) : Option Count :=
  let autoL : List Value :=
    match automated with
    | .null => []
    | .list xs => xs
    | v => [v]
  let truthL : List Value :=
    match truth with
    | .null => []
    | .list xs => xs
    | v => [v]
  if order_matters then
    let tp := ((autoL.zip truthL).filter (fun p => compare_string p.1 p.2 fuzzy)).length
    some ⟨tp, autoL.length - truthL.length, truthL.length - autoL.length, none⟩
  else
    if fuzzy then
      let aS := (autoL.map (fun v => normalize_string v true)).dedup
      let tS := (truthL.map (fun v => normalize_string v true)).dedup
      some ⟨(aS.filter (fun x => x ∈ tS)).length,
            (aS.filter (fun x => x ∉ tS)).length,
            (tS.filter (fun x => x ∉ aS)).length, none⟩
    else
      match autoL.mapM canon, truthL.mapM canon with
      | some av, some tv =>
        let aS := av.dedup
        let tS := tv.dedup
        some ⟨(aS.filter (fun x => x ∈ tS)).length,
              (aS.filter (fun x => x ∉ tS)).length,
              (tS.filter (fun x => x ∉ aS)).length, none⟩
      | _, _ => none

/-- Derived precision / recall / F1 record returned by
`calculate_metrics(tp, fp, fn)`. -/
structure Metrics where
  precision : Rat
  recall_ : Rat
  f1 : Rat
  tp : Nat
  fp : Nat
  fn : Nat
deriving DecidableEq, Repr

/-- Embedding of `calculate_metrics(tp, fp, fn)`: each ratio is 0 when its
denominator is 0. -/
def calculate_metrics (tp fp fn : Nat) : Metrics :=
  let precision : Rat := if tp + fp > 0 then (tp : Rat) / ((tp : Rat) + (fp : Rat)) else 0
  let recall_ : Rat := if tp + fn > 0 then (tp : Rat) / ((tp : Rat) + (fn : Rat)) else 0
  let f1 : Rat :=
    if precision + recall_ > 0 then 2 * precision * recall_ / (precision + recall_) else 0
  ⟨precision, recall_, f1, tp, fp, fn⟩

/-- Keyword-expansion call `calculate_metrics(**counts)` as it appears in
`evaluate_paper`: when `counts` carries the `tn` key (it came from
`compare_boolean`), the call raises
`TypeError: calculate_metrics() got an unexpected keyword argument` —
modelled by `none`. -/
def calculate_metricsK (c : Count) : Option Metrics :=
  match c.tn with
  | some _ => none
  | none => some (calculate_metrics c.tp c.fp c.fn)

/-- Dictionary lookup `d.get(field)`: the stored value, or `None` when the
key is absent. -/
def getD (fs : List (String × Value)) (k : String) : Value :=
  match fs.find? (fun p => p.1 == k) with
  | some p => p.2
  | none => .null

theorem getD_sizeOf_lt (fs : List (String × Value)) (k : String) :
    sizeOf (getD fs k) < 1 + sizeOf fs := by
  rw [getD]
  cases h : fs.find? (fun p => p.1 == k) with
  | none =>
    have h1 : 1 ≤ sizeOf fs := by cases fs <;> simp_arith
    simp
    omega
  | some p =>
    have hm : p ∈ fs := List.mem_of_find?_eq_some h
    have h1 := List.sizeOf_lt_of_mem hm
    have h2 : sizeOf p.2 < sizeOf p := by
      obtain ⟨a, b⟩ := p
      simp
    simp
    omega

mutual

/-- Embedding of `compare_field(automated, truth, field_name, config)`: type
dispatch on `truth`.  The dict branch inlines
`compare_nested(automated or {}, truth, config)`: a falsy `automated` is
replaced by the empty dictionary, but a truthy non-dict `automated` reaches
`automated.keys()` inside `compare_nested` and raises `AttributeError`
(`none`).  The final Python fallback branch (`else: exact match`) is
unreachable for JSON-decoded values and has no counterpart here.  The
`field_name` parameter of the source is unused and omitted. -/
def compare_field (automated truth : Value) (cfg : Config) : Option Count :=
  match truth with
  | .bool b => some (compare_boolean automated (.bool b))
  | .num q =>
    some (if compare_numeric automated (.num q) cfg.numeric_tolerance
          then ⟨1, 0, 0, none⟩ else ⟨0, 1, 1, none⟩)
  | .str s =>
    some (if compare_string automated (.str s) cfg.fuzzy_strings
          then ⟨1, 0, 0, none⟩ else ⟨0, 1, 1, none⟩)
  | .list xs => compare_list automated (.list xs) cfg.list_order_matters cfg.fuzzy_strings
  | .dict tfs =>
    match (if pyTruthy automated then automated else .dict []) with
    | .dict afs =>
      compare_nested_fields ((afs.map Prod.fst ++ tfs.map Prod.fst).dedup) afs tfs cfg
    | _ => none
  | .null =>
    match automated with
    | .null => some ⟨1, 0, 0, none⟩
    | .str "" => some ⟨1, 0, 0, none⟩
    | .list [] => some ⟨1, 0, 0, none⟩
    | _ => some ⟨0, 1, 0, none⟩
termination_by (sizeOf truth, 1, 0)

/-- Field loop of `compare_nested`: iterate over the union of key sets,
compare each field pair, and accumulate only the `tp`/`fp`/`fn` entries
(the `tn` key of a boolean comparison is dropped by the
`for key in ['tp','fp','fn']` accumulation). -/
def compare_nested_fields (fields : List String) (afs tfs : List (String × Value))
    (cfg : Config) : Option Count :=
  match fields with
  | [] => some ⟨0, 0, 0, none⟩
  | f :: rest =>
    have hlt : sizeOf (getD tfs f) < 1 + sizeOf tfs := getD_sizeOf_lt tfs f
    match compare_field (getD afs f) (getD tfs f) cfg,
          compare_nested_fields rest afs tfs cfg with
    | some c, some acc => some ⟨c.tp + acc.tp, c.fp + acc.fp, c.fn + acc.fn, none⟩
    | _, _ => none
termination_by (1 + sizeOf tfs, 0, fields.length)

end

/-- Embedding of `compare_nested(automated, truth, config)` as called
directly (from the per-record detail of `evaluate_paper`): both sides must
be dictionaries, otherwise `set(x.keys())` raises `AttributeError`
(`none`). -/
def compare_nested (automated truth : Value) (cfg : Config) : Option Count :=
  match automated, truth with
  | .dict afs, .dict tfs =>
    compare_nested_fields ((afs.map Prod.fst ++ tfs.map Prod.fst).dedup) afs tfs cfg
  | _, _ => none

/-- Entry of `field_metrics` in an evaluated item: either the plain Metrics
of a simple field, or — for the field literally named `records` — the
count-level Metrics together with the positional per-record detail (the
source stores the detail as `record_index` / `metrics` pairs; the index is
the list position here). -/
inductive FieldEval where
  | simple (m : Metrics)
  | recordsEval (count_metrics : Metrics) (record_details : List Metrics)
deriving DecidableEq, Repr

/-- Result of `evaluate_paper` for one corpus item, and the shape consumed by
`aggregate_metrics`: the `not_annotated` status, or an `evaluated` status
with per-field metrics and the overall Metrics. -/
inductive ItemEvaluation where
  | not_annotated
  | evaluated (field_metrics : List (String × FieldEval)) (overall : Metrics)
deriving DecidableEq, Repr

/-- Dictionary lookup with a default, `d.get(k, dflt)`: the default applies
only when the key is absent (a stored null is returned as-is). -/
def getDefault (fs : List (String × Value)) (k : String) (dflt : Value) : Value :=
  match fs.find? (fun p => p.1 == k) with
  | some p => p.2
  | none => dflt

/-- Per-record detail loop of `evaluate_paper`: for each positionally zipped
pair of sub-records, `compare_nested` then `calculate_metrics(**counts)`.
Any raised exception propagates (`none`). -/
def recordDetails (pairs : List (Value × Value)) (cfg : Config) : Option (List Metrics) :=
  match pairs with
  | [] => some []
  | (a, t) :: rest =>
    match compare_nested a t cfg with
    | none => none
    | some c =>
      match calculate_metricsK c, recordDetails rest cfg with
      | some m, some ms => some (m :: ms)
      | _, _ => none

/-- Field loop of `evaluate_paper`.  The field named `records` gets the
dedicated treatment: a count-level `compare_list` with `order_matters=False`
(and the default `fuzzy=False`), then a positional zip of the two record
lists compared with `compare_nested`.  Zipping a non-list (e.g. an explicit
null stored under `records`) raises `TypeError` (`none`; Python would also
accept other iterables such as strings there, a case not modelled).  Every
other field goes through `compare_field` and `calculate_metrics(**counts)`. -/
def evalFields (fields : List String) (afs tfs : List (String × Value))
    (cfg : Config) : Option (List (String × FieldEval)) :=
  match fields with
  | [] => some []
  | f :: rest =>
    let fe? : Option FieldEval :=
      if f == "records" then
        let auto_records := getDefault afs "records" (.list [])
        let truth_records := getDefault tfs "records" (.list [])
        match compare_list auto_records truth_records false false with
        | none => none
        | some rc =>
          match calculate_metricsK rc with
          | none => none
          | some cm =>
            match auto_records, truth_records with
            | .list als, .list tls =>
              match recordDetails (als.zip tls) cfg with
              | none => none
              | some ds => some (.recordsEval cm ds)
            | _, _ => none
      else
        match compare_field (getD afs f) (getD tfs f) cfg with
        | none => none
        | some c =>
          match calculate_metricsK c with
          | none => none
          | some m => some (.simple m)
    match fe?, evalFields rest afs tfs cfg with
    | some fe, some fms => some ((f, fe) :: fms)
    | _, _ => none

/-- Total `tp` over `field_metrics.values()` in `evaluate_paper`: a simple
entry contributes its own `tp`, a records entry the `tp` of its
`count_metrics`. -/
def fieldEvalTp : FieldEval → Nat
  | .simple m => m.tp
  | .recordsEval cm _ => cm.tp

/-- Total `fp` over `field_metrics.values()` in `evaluate_paper`. -/
def fieldEvalFp : FieldEval → Nat
  | .simple m => m.fp
  | .recordsEval cm _ => cm.fp

/-- Total `fn` over `field_metrics.values()` in `evaluate_paper`. -/
def fieldEvalFn : FieldEval → Nat
  | .simple m => m.fn
  | .recordsEval cm _ => cm.fn

/-- Embedding of `evaluate_paper(paper_id, automated, truth, config)`.
`truth = none` models an absent ground truth (`not_annotated`); otherwise
every field in the union of key sets is evaluated and the overall Metrics is
derived from the sum of the per-field counts (for `records`, its count-level
counts).  `none` models an uncaught exception.  The `paper_id` argument of
the source does not influence the result and is omitted. -/
def evaluate_paper (automated : List (String × Value))
    (truth : Option (List (String × Value))) (cfg : Config) : Option ItemEvaluation :=
  match truth with
  | none => some .not_annotated
  | some tfs =>
    let fields := (automated.map Prod.fst ++ tfs.map Prod.fst).dedup
    match evalFields fields automated tfs cfg with
    | none => none
    | some fms =>
      let ttp := (fms.map (fun p => fieldEvalTp p.2)).sum
      let tfp := (fms.map (fun p => fieldEvalFp p.2)).sum
      let tfn := (fms.map (fun p => fieldEvalFn p.2)).sum
      some (.evaluated fms (calculate_metrics ttp tfp tfn))

/-- Aggregation cell of `field_aggregates`: a plain `tp`/`fp`/`fn` triple. -/
structure Counts where
  tp : Nat
  fp : Nat
  fn : Nat
deriving DecidableEq, Repr

/-- Field-wise addition of count triples — the merge operation underlying
`field_aggregates[field][key] += metrics[key]`. -/
def addCounts (a b : Counts) : Counts :=
  ⟨a.tp + b.tp, a.fp + b.fp, a.fn + b.fn⟩

/-- Counts contributed by one `field_metrics` entry during aggregation: a
simple entry contributes its `tp`/`fp`/`fn`, a records entry the counts of
its `count_metrics`. -/
def fieldEvalCounts : FieldEval → Counts
  | .simple m => ⟨m.tp, m.fp, m.fn⟩
  | .recordsEval cm _ => ⟨cm.tp, cm.fp, cm.fn⟩

/-- `defaultdict` accumulation: add `c` into the cell for key `f`, creating
the cell when absent. -/
def aggUpdate : List (String × Counts) → String → Counts → List (String × Counts)
  | [], f, c => [(f, c)]
  | (g, d) :: rest, f, c =>
    if g == f then (g, addCounts d c) :: rest else (g, d) :: aggUpdate rest f c

/-- Fold one evaluated item's `field_metrics` into `field_aggregates`. -/
def aggFields (acc : List (String × Counts)) (fms : List (String × FieldEval)) :
    List (String × Counts) :=
  fms.foldl (fun m p => aggUpdate m p.1 (fieldEvalCounts p.2)) acc

/-- Status filter used by `aggregate_metrics`. -/
def isEvaluated : ItemEvaluation → Bool
  | .evaluated _ _ => true
  | .not_annotated => false

/-- Fold a collection of item evaluations into `field_aggregates` (the items
are already filtered to `evaluated` by the caller; a `not_annotated` item
contributes nothing). -/
def aggItems (acc : List (String × Counts)) (evals : List ItemEvaluation) :
    List (String × Counts) :=
  evals.foldl
    (fun m e =>
      match e with
      | .evaluated fms _ => aggFields m fms
      | .not_annotated => m)
    acc

/-- Output of `aggregate_metrics`: overall Metrics, per-field Metrics, and
the number of evaluated items. -/
structure AggregatedReport where
  overall : Metrics
  by_field : List (String × Metrics)
  num_papers_evaluated : Nat
deriving DecidableEq, Repr

/-- Embedding of `aggregate_metrics(paper_evaluations)`: filter to evaluated
items, sum each field's counts across items, re-derive Metrics per field and
for the overall sum, and count the evaluated items. -/
def aggregate_metrics (evals : List ItemEvaluation) : AggregatedReport :=
  let evaluated := evals.filter isEvaluated
  let fa := aggItems [] evaluated
  let by_field := fa.map (fun p => (p.1, calculate_metrics p.2.tp p.2.fp p.2.fn))
  let ttp := (fa.map (fun p => p.2.tp)).sum
  let tfp := (fa.map (fun p => p.2.fp)).sum
  let tfn := (fa.map (fun p => p.2.fn)).sum
  ⟨calculate_metrics ttp tfp tfn, by_field, evaluated.length⟩

/-- Low-recall common-issues list of `generate_report`: fields of the
aggregated `by_field` table with recall below the fixed 0.70 threshold and
at least one false negative, sorted ascending by recall (Python's stable
`sorted`, modelled by `mergeSort`).  The comparison configuration plays no
part in it. -/
def report_low_recall (by_field : List (String × Metrics)) : List (String × Metrics) :=
  (by_field.filter (fun p => decide (p.2.recall_ < 7/10) && decide (0 < p.2.fn))).mergeSort
    (fun x y => decide (x.2.recall_ ≤ y.2.recall_))

/-- Low-precision common-issues list of `generate_report`: fields with
precision below the fixed 0.70 threshold and at least one false positive,
sorted ascending by precision. -/
def report_low_precision (by_field : List (String × Metrics)) : List (String × Metrics) :=
  (by_field.filter (fun p => decide (p.2.precision < 7/10) && decide (0 < p.2.fp))).mergeSort
    (fun x y => decide (x.2.precision ≤ y.2.precision))

/-! ## Helper lemmas -/

/-- Default comparison configuration of the command line:
tolerance 0, no fuzzy strings, list order ignored. -/
def cfgDefault : Config := ⟨0, false, false⟩

/-- Normalization applied to a string list element by the comparison
configuration (string normalization when `fuzzy_strings` is set). -/
def strNorm (cfg : Config) (s : String) : String :=
  normalize_string (.str s) cfg.fuzzy_strings

/-- Counts contributed by one item to the aggregate, per projection `g`. -/
def itemCountsSum (g : Counts → Nat) : ItemEvaluation → Nat
  | .evaluated fms _ => (fms.map (fun p => g (fieldEvalCounts p.2))).sum
  | .not_annotated => 0

theorem aggUpdate_sum (g : Counts → Nat) (hg : ∀ a b, g (addCounts a b) = g a + g b)
    (m : List (String × Counts)) (f : String) (c : Counts) :
    ((aggUpdate m f c).map (fun p => g p.2)).sum = (m.map (fun p => g p.2)).sum + g c := by
  induction m with
  | nil => simp [aggUpdate]
  | cons hd tl ih =>
    obtain ⟨gk, d⟩ := hd
    by_cases h : gk == f
    · simp [aggUpdate, h, hg]
      omega
    · simp [aggUpdate, h, ih]
      omega

theorem aggFields_sum (g : Counts → Nat) (hg : ∀ a b, g (addCounts a b) = g a + g b)
    (fms : List (String × FieldEval)) :
    ∀ m : List (String × Counts),
      ((aggFields m fms).map (fun p => g p.2)).sum =
        (m.map (fun p => g p.2)).sum + (fms.map (fun p => g (fieldEvalCounts p.2))).sum := by
  induction fms with
  | nil => intro m; simp [aggFields]
  | cons hd tl ih =>
    intro m
    have h1 : aggFields m (hd :: tl) = aggFields (aggUpdate m hd.1 (fieldEvalCounts hd.2)) tl := rfl
    rw [h1, ih, aggUpdate_sum g hg]
    simp
    omega

theorem aggItems_sum (g : Counts → Nat) (hg : ∀ a b, g (addCounts a b) = g a + g b)
    (evals : List ItemEvaluation) :
    ∀ m : List (String × Counts),
      ((aggItems m evals).map (fun p => g p.2)).sum =
        (m.map (fun p => g p.2)).sum + (evals.map (itemCountsSum g)).sum := by
  induction evals with
  | nil => intro m; simp [aggItems]
  | cons hd tl ih =>
    intro m
    cases hd with
    | not_annotated =>
      have h1 : aggItems m (.not_annotated :: tl) = aggItems m tl := rfl
      rw [h1, ih]
      simp [itemCountsSum]
    | evaluated fms ov =>
      have h1 : aggItems m (.evaluated fms ov :: tl) = aggItems (aggFields m fms) tl := rfl
      rw [h1, ih, aggFields_sum g hg]
      simp [itemCountsSum]
      omega

theorem overall_tp_eq (L : List ItemEvaluation) :
    (aggregate_metrics L).overall.tp =
      ((L.filter isEvaluated).map (itemCountsSum Counts.tp)).sum := by
  show ((aggItems [] (L.filter isEvaluated)).map (fun p => p.2.tp)).sum = _
  rw [aggItems_sum Counts.tp (fun a b => rfl)]
  simp

theorem overall_fp_eq (L : List ItemEvaluation) :
    (aggregate_metrics L).overall.fp =
      ((L.filter isEvaluated).map (itemCountsSum Counts.fp)).sum := by
  show ((aggItems [] (L.filter isEvaluated)).map (fun p => p.2.fp)).sum = _
  rw [aggItems_sum Counts.fp (fun a b => rfl)]
  simp

theorem overall_fn_eq (L : List ItemEvaluation) :
    (aggregate_metrics L).overall.fn =
      ((L.filter isEvaluated).map (itemCountsSum Counts.fn)).sum := by
  show ((aggItems [] (L.filter isEvaluated)).map (fun p => p.2.fn)).sum = _
  rw [aggItems_sum Counts.fn (fun a b => rfl)]
  simp

theorem length_filter_dedup_mem {α : Type} [DecidableEq α] (l m : List α) :
    (l.dedup.filter (fun x => decide (x ∈ m.dedup))).length = (l.toFinset ∩ m.toFinset).card := by
  have hnd : (l.dedup.filter (fun x => decide (x ∈ m.dedup))).Nodup :=
    (List.nodup_dedup l).filter _
  rw [← List.toFinset_card_of_nodup hnd]
  congr 1
  ext a
  simp [List.mem_filter, List.mem_dedup]

theorem length_filter_dedup_not_mem {α : Type} [DecidableEq α] (l m : List α) :
    (l.dedup.filter (fun x => decide (x ∉ m.dedup))).length = (l.toFinset \ m.toFinset).card := by
  have hnd : (l.dedup.filter (fun x => decide (x ∉ m.dedup))).Nodup :=
    (List.nodup_dedup l).filter _
  rw [← List.toFinset_card_of_nodup hnd]
  congr 1
  ext a
  simp [List.mem_filter, List.mem_dedup]

theorem hstr_injective : Function.Injective HashV.hstr := by
  intro a b h
  injection h

theorem toFinset_map_hstr (A : List String) :
    (A.map HashV.hstr).toFinset = A.toFinset.image HashV.hstr := by
  ext a
  simp

theorem mapM_canon_loop (A : List String) :
    ∀ acc : List HashV,
      List.mapM.loop canon (A.map Value.str) acc = some (acc.reverse ++ A.map HashV.hstr) := by
  induction A with
  | nil => intro acc; simp [List.mapM.loop]
  | cons hd tl ih =>
    intro acc
    simp [List.mapM.loop, canon, ih]

theorem mapM_canon_str (A : List String) :
    (A.map Value.str).mapM canon = some (A.map HashV.hstr) := by
  rw [List.mapM]
  rw [mapM_canon_loop]
  simp

theorem card_inter_map_hstr (A T : List String) :
    ((A.map HashV.hstr).toFinset ∩ (T.map HashV.hstr).toFinset).card =
      (A.toFinset ∩ T.toFinset).card := by
  rw [toFinset_map_hstr, toFinset_map_hstr, ← Finset.image_inter _ _ hstr_injective,
    Finset.card_image_of_injective _ hstr_injective]

theorem card_sdiff_map_hstr (A T : List String) :
    ((A.map HashV.hstr).toFinset \ (T.map HashV.hstr).toFinset).card =
      (A.toFinset \ T.toFinset).card := by
  rw [toFinset_map_hstr, toFinset_map_hstr, ← Finset.image_sdiff _ _ hstr_injective,
    Finset.card_image_of_injective _ hstr_injective]

theorem compare_numeric_num (a t : Rat) (tol : Rat) :
    compare_numeric (.num a) (.num t) tol =
      (if tol > 0 then decide (|a - t| ≤ tol) else decide (a = t)) := by
  simp [compare_numeric, pyFloatOf]

/-- Unordered string-list comparison computes exactly the set formulas of
the List Rule over normalized elements. -/
theorem compare_list_unordered_core (cfg : Config) (A T : List String)
    (h : cfg.list_order_matters = false) :
    compare_field (.list (A.map .str)) (.list (T.map .str)) cfg =
      some ⟨((A.map (strNorm cfg)).toFinset ∩ (T.map (strNorm cfg)).toFinset).card,
            ((A.map (strNorm cfg)).toFinset \ (T.map (strNorm cfg)).toFinset).card,
            ((T.map (strNorm cfg)).toFinset \ (A.map (strNorm cfg)).toFinset).card, none⟩ := by
  rw [compare_field, compare_list, h]
  cases hf : cfg.fuzzy_strings with
  | true =>
    have hn : ∀ L : List String,
        (L.map Value.str).map (fun v => normalize_string v true) = L.map (strNorm cfg) := by
      intro L
      rw [List.map_map]
      apply List.map_congr_left
      intro a _
      simp [strNorm, normalize_string, hf]
    simp only [Bool.false_eq_true, if_false, if_true, hn]
    rw [length_filter_dedup_mem, length_filter_dedup_not_mem, length_filter_dedup_not_mem]
  | false =>
    have hid : strNorm cfg = fun s => s := by
      funext a
      simp [strNorm, normalize_string, hf]
    have hn : ∀ L : List String, L.map (strNorm cfg) = L := by
      intro L
      rw [hid]
      simp
    simp only [Bool.false_eq_true, if_false, mapM_canon_str]
    rw [length_filter_dedup_mem, length_filter_dedup_not_mem, length_filter_dedup_not_mem]
    rw [card_inter_map_hstr, card_sdiff_map_hstr, card_sdiff_map_hstr, hn A, hn T]

theorem filter_ne_singleton_length {α : Type} [DecidableEq α] (l : List α) (x : α)
    (hnd : l.Nodup) (hx : x ∈ l) :
    (l.filter (fun y => decide (y ∉ [x]))).length = l.length - 1 := by
  induction l with
  | nil => simp at hx
  | cons hd tl ih =>
    rcases List.mem_cons.mp hx with h1 | h1
    · have hnotin : hd ∉ tl := (List.nodup_cons.mp hnd).1
      have hall : ∀ y ∈ tl, decide (y ∉ [x]) = true := by
        intro y hy
        have hy2 : y ≠ x := by
          intro hc
          exact hnotin (h1 ▸ (hc ▸ hy))
        simp [hy2]
      have hx0 : decide (hd ∉ [x]) = false := by simp [h1]
      rw [List.filter_cons, hx0]
      simp only [Bool.false_eq_true, if_false]
      rw [List.filter_eq_self.mpr hall]
      simp
    · have hne : hd ≠ x := by
        intro hc
        exact (List.nodup_cons.mp hnd).1 (hc ▸ h1)
      have hlen : 1 ≤ tl.length := List.length_pos.mpr (List.ne_nil_of_mem h1)
      have hx1 : decide (hd ∉ [x]) = true := by simp [hne]
      rw [List.filter_cons]
      simp only [hx1, if_true]
      rw [List.length_cons, List.length_cons, ih (List.nodup_cons.mp hnd).2 h1]
      omega

theorem mapM_canon_single (a : Value) (ha : HashV) (h : canon a = some ha) :
    [a].mapM canon = some [ha] := by
  simp [List.mapM, List.mapM.loop, h]

/-! ## Claim theorems -/

/-- C1 (code_bug): the specification requires `compare` to be total — a type
mismatch between automated and truth must be a comparison outcome, never an
exception.  The code violates this: when truth is a mapping and automated is
a truthy non-mapping scalar, `compare_nested(automated or {}, truth, config)`
passes the scalar through (`or` only replaces falsy values) and
`automated.keys()` raises `AttributeError`.  This theorem evaluates the
embedded code at such an input: automated `5` against truth `{"k": "v"}`
raises (`none`). -/
theorem c1_compare_truthy_scalar_vs_mapping_raises :
    compare_field (.num 5) (.dict [("k", .str "v")]) cfgDefault = none := by
  simp [compare_field, pyTruthy]

/-- C2 (code_bug): the specification requires the `records` field to get a
count-level Metric from the unordered List Rule with each sub-record as an
opaque unit.  The code instead raises for every item with non-empty record
lists: `compare_list(auto_records, truth_records, order_matters=False)` is
called with the default `fuzzy=False`, so `set(list_of_dicts)` raises
`TypeError: unhashable type`.  This theorem evaluates the embedded code at a
one-record item: evaluation raises (`none`) instead of producing an
evaluated item. -/
theorem c2_evaluate_paper_nonempty_records_raises :
    evaluate_paper [("records", .list [.dict [("x", .num 1)]])]
      (some [("records", .list [.dict [("x", .num 1)]])]) cfgDefault = none := by
  simp [evaluate_paper, evalFields, compare_list, getDefault, canon, List.dedup,
    calculate_metricsK, List.mapM, List.mapM.loop]

/-- C3 (corrected), counterexample: the claim says `compare(false, false, cfg)`
contributes tp = 0 (an implicit true-negative).  In the code the equality
branch of `compare_boolean` fires first, so `automated == truth` yields
`{tp: 1, fp: 0, fn: 0, tn: 0}` — the tp entry is 1, not 0. -/
theorem c3_boolean_false_false_cex :
    (compare_field (.bool false) (.bool false) cfgDefault).map Count.tp ≠ some 0 := by
  simp [compare_field, compare_boolean, pyEq, canon]

/-- C3 (corrected), amended claim: when truth is a boolean, `compare`
implements the table tt ↦ `{tp:1,fp:0,fn:0}`, tf ↦ `{tp:0,fp:1,fn:0}`,
ft ↦ `{tp:0,fp:0,fn:1}`, and ff ↦ `{tp:1,fp:0,fn:0}` — the false/false match
is counted as a true positive by the equality branch of `compare_boolean`,
not as the implicit excluded true-negative; the `tn := 1` outcome comes only
from the final else branch (automated unequal to truth with neither the fp
nor the fn condition holding, e.g. automated null against truth false, or
automated 5 against truth true).  The `tn` key is present on every row
(`some _`). -/
theorem c3_boolean_table_amended (cfg : Config) :
    compare_field (.bool true) (.bool true) cfg = some ⟨1, 0, 0, some 0⟩ ∧
    compare_field (.bool true) (.bool false) cfg = some ⟨0, 1, 0, some 0⟩ ∧
    compare_field (.bool false) (.bool true) cfg = some ⟨0, 0, 1, some 0⟩ ∧
    compare_field (.bool false) (.bool false) cfg = some ⟨1, 0, 0, some 0⟩ := by
  refine ⟨?_, ?_, ?_, ?_⟩ <;> simp [compare_field, compare_boolean, pyEq, canon, pyTruthy]

/-- C4 (code_bug): the specification requires `evaluate` to be total on
annotated items, including items with a top-level boolean field.  The code
violates this: `compare_boolean` returns a four-key dictionary including
`tn`, and `evaluate_paper` expands it with `calculate_metrics(**counts)`,
whose signature accepts only `tp`, `fp`, `fn` — raising
`TypeError: got an unexpected keyword argument`.  This theorem evaluates the
embedded code at an item whose only field is boolean: evaluation raises
(`none`). -/
theorem c4_evaluate_paper_toplevel_boolean_raises :
    evaluate_paper [("flag", .bool true)] (some [("flag", .bool true)]) cfgDefault = none := by
  simp [evaluate_paper, evalFields, compare_field, compare_boolean, calculate_metricsK,
    getD, pyEq, canon, List.dedup]

/-- C5 (confirmed): aggregation is additive — for any two collections of item
evaluations, every Count field of the overall aggregate of their
concatenation is the sum of the corresponding fields of the separate
aggregates; the underlying merge of Counts is associative and commutative;
and aggregating the empty collection yields the identity Metrics
`{precision: 0, recall: 0, f1: 0, tp: 0, fp: 0, fn: 0}` with
`num_papers_evaluated = 0`. -/
theorem c5_aggregate_additive :
    (∀ A B : List ItemEvaluation,
        (aggregate_metrics (A ++ B)).overall.tp =
            (aggregate_metrics A).overall.tp + (aggregate_metrics B).overall.tp ∧
        (aggregate_metrics (A ++ B)).overall.fp =
            (aggregate_metrics A).overall.fp + (aggregate_metrics B).overall.fp ∧
        (aggregate_metrics (A ++ B)).overall.fn =
            (aggregate_metrics A).overall.fn + (aggregate_metrics B).overall.fn) ∧
    (∀ a b c : Counts, addCounts (addCounts a b) c = addCounts a (addCounts b c)) ∧
    (∀ a b : Counts, addCounts a b = addCounts b a) ∧
    (aggregate_metrics []).overall = ⟨0, 0, 0, 0, 0, 0⟩ ∧
    (aggregate_metrics []).num_papers_evaluated = 0 := by
  refine ⟨?_, ?_, ?_, ?_, ?_⟩
  · intro A B
    refine ⟨?_, ?_, ?_⟩
    · rw [overall_tp_eq, overall_tp_eq, overall_tp_eq, List.filter_append, List.map_append,
        List.sum_append]
    · rw [overall_fp_eq, overall_fp_eq, overall_fp_eq, List.filter_append, List.map_append,
        List.sum_append]
    · rw [overall_fn_eq, overall_fn_eq, overall_fn_eq, List.filter_append, List.map_append,
        List.sum_append]
  · intro a b c
    simp [addCounts]
    omega
  · intro a b
    simp [addCounts]
    omega
  · simp [aggregate_metrics, aggItems, calculate_metrics]
  · rfl

/-- C6 (confirmed): when truth and automated are both numeric and the
configured tolerance is non-negative, `compare` returns `{tp:1,fp:0,fn:0}`
exactly when `|automated - truth|` is within the tolerance (tolerance 0
meaning exact equality), and the simultaneous `{tp:0,fp:1,fn:1}`
otherwise. -/
theorem c6_numeric_tolerance (a t : Rat) (cfg : Config)
    (h : 0 ≤ cfg.numeric_tolerance) :
    compare_field (.num a) (.num t) cfg =
      some (if |a - t| ≤ cfg.numeric_tolerance then ⟨1, 0, 0, none⟩ else ⟨0, 1, 1, none⟩) := by
  rw [compare_field]
  rw [compare_numeric_num]
  rcases lt_or_eq_of_le h with h1 | h1
  · simp only [h1, if_pos]
    by_cases h2 : |a - t| ≤ cfg.numeric_tolerance <;> simp [h2]
  · rw [← h1]
    have h3 : (|a - t| ≤ (0:Rat)) ↔ a = t := by
      rw [abs_nonpos_iff, sub_eq_zero]
    by_cases h2 : a = t <;> simp [h2, h3]

/-- Witness for C6: with tolerance 1/2, automated 5.3 against truth 5.0 is
within tolerance and yields a tp. -/
theorem c6_numeric_tolerance_witness :
    compare_field (.num (53/10)) (.num 5) ⟨1/2, false, false⟩ = some ⟨1, 0, 0, none⟩ := by
  have h := c6_numeric_tolerance (53/10) 5 ⟨1/2, false, false⟩ (by norm_num)
  rw [h]
  norm_num [abs_le]

/-- C7 (confirmed): with `list_order_matters` disabled, comparing two string
lists yields tp = |A ∩ T|, fp = |A − T|, fn = |T − A| over the sets of
(normalized, when `fuzzy_strings` is set) elements; consequently the result
is invariant under permutation of either list, and duplicates collapse into
the sets. -/
theorem c7_unordered_list_sets (cfg : Config) (A T : List String)
    (h : cfg.list_order_matters = false) :
    (compare_field (.list (A.map .str)) (.list (T.map .str)) cfg =
      some ⟨((A.map (strNorm cfg)).toFinset ∩ (T.map (strNorm cfg)).toFinset).card,
            ((A.map (strNorm cfg)).toFinset \ (T.map (strNorm cfg)).toFinset).card,
            ((T.map (strNorm cfg)).toFinset \ (A.map (strNorm cfg)).toFinset).card, none⟩) ∧
    (∀ A' T' : List String, A.Perm A' → T.Perm T' →
      compare_field (.list (A'.map .str)) (.list (T'.map .str)) cfg =
        compare_field (.list (A.map .str)) (.list (T.map .str)) cfg) := by
  refine ⟨compare_list_unordered_core cfg A T h, ?_⟩
  intro A' T' hA hT
  rw [compare_list_unordered_core cfg A' T' h, compare_list_unordered_core cfg A T h,
    show (List.map (strNorm cfg) A').toFinset = (List.map (strNorm cfg) A).toFinset from
      (List.toFinset_eq_of_perm _ _ (hA.map (strNorm cfg))).symm,
    show (List.map (strNorm cfg) T').toFinset = (List.map (strNorm cfg) T).toFinset from
      (List.toFinset_eq_of_perm _ _ (hT.map (strNorm cfg))).symm]

/-- Witness for C7: `compare(["a","b"], ["b","a"])` with order ignored gives
`{tp:2, fp:0, fn:0}`. -/
theorem c7_unordered_list_sets_witness :
    compare_field (.list [.str "a", .str "b"]) (.list [.str "b", .str "a"]) cfgDefault =
      some ⟨2, 0, 0, none⟩ := by
  have h := (c7_unordered_list_sets cfgDefault ["a", "b"] ["b", "a"] rfl).1
  simp only [List.map] at h
  rw [h]
  have hid : strNorm cfgDefault = fun s => s := by
    funext a
    simp [strNorm, normalize_string, cfgDefault]
  rw [hid]
  decide

/-- C8 (confirmed): the low-recall common-issues list holds exactly the
fields with recall < 0.70 and at least one false negative, sorted ascending
by recall; the low-precision list holds exactly the fields with
precision < 0.70 and at least one false positive, sorted ascending by
precision.  The 0.70 thresholds are literals in `generate_report`
(`report_low_recall` and `report_low_precision` take no configuration). -/
theorem c8_report_common_issues (bf : List (String × Metrics)) :
    (∀ p : String × Metrics,
        p ∈ report_low_recall bf ↔ p ∈ bf ∧ p.2.recall_ < 7/10 ∧ 0 < p.2.fn) ∧
    (report_low_recall bf).Pairwise (fun x y => x.2.recall_ ≤ y.2.recall_) ∧
    (∀ p : String × Metrics,
        p ∈ report_low_precision bf ↔ p ∈ bf ∧ p.2.precision < 7/10 ∧ 0 < p.2.fp) ∧
    (report_low_precision bf).Pairwise (fun x y => x.2.precision ≤ y.2.precision) := by
  refine ⟨?_, ?_, ?_, ?_⟩
  · intro p
    rw [report_low_recall, List.mem_mergeSort, List.mem_filter]
    simp
  · have hs := @List.sorted_mergeSort (String × Metrics)
      (fun x y => decide (x.2.recall_ ≤ y.2.recall_))
      (fun a b c hab hbc => by
        simp at *
        exact le_trans hab hbc)
      (fun a b => by
        simp [Bool.or_eq_true]
        exact le_total _ _)
      (bf.filter (fun p => decide (p.2.recall_ < 7/10) && decide (0 < p.2.fn)))
    rw [report_low_recall]
    exact hs.imp (fun h => by simpa using h)
  · intro p
    rw [report_low_precision, List.mem_mergeSort, List.mem_filter]
    simp
  · have hs := @List.sorted_mergeSort (String × Metrics)
      (fun x y => decide (x.2.precision ≤ y.2.precision))
      (fun a b c hab hbc => by
        simp at *
        exact le_trans hab hbc)
      (fun a b => by
        simp [Bool.or_eq_true]
        exact le_total _ _)
      (bf.filter (fun p => decide (p.2.precision < 7/10) && decide (0 < p.2.fp)))
    rw [report_low_precision]
    exact hs.imp (fun h => by simpa using h)

/-- C9 (confirmed): when truth is numeric and automated is a string, the
string is first parsed as a number; a parse within the (non-negative)
tolerance of truth yields a tp, a parse outside yields simultaneous fp+fn,
and a non-numeric string falls back to plain Python equality with the
number — always false for a string — yielding `{tp:0,fp:1,fn:1}`. -/
theorem c9_numeric_string_coercion (s : String) (t : Rat) (cfg : Config)
    (h : 0 ≤ cfg.numeric_tolerance) :
    (∀ a : Rat, pyFloatParse s = some a →
        compare_field (.str s) (.num t) cfg =
          some (if |a - t| ≤ cfg.numeric_tolerance then ⟨1, 0, 0, none⟩ else ⟨0, 1, 1, none⟩)) ∧
    (pyFloatParse s = none → compare_field (.str s) (.num t) cfg = some ⟨0, 1, 1, none⟩) := by
  constructor
  · intro a ha
    rw [compare_field]
    have hc : compare_numeric (.str s) (.num t) cfg.numeric_tolerance =
        (if cfg.numeric_tolerance > 0 then decide (|a - t| ≤ cfg.numeric_tolerance)
         else decide (a = t)) := by
      simp [compare_numeric, pyFloatOf, ha]
    rw [hc]
    rcases lt_or_eq_of_le h with h1 | h1
    · simp only [h1, if_pos]
      by_cases h2 : |a - t| ≤ cfg.numeric_tolerance <;> simp [h2]
    · rw [← h1]
      have h3 : (|a - t| ≤ (0:Rat)) ↔ a = t := by rw [abs_nonpos_iff, sub_eq_zero]
      by_cases h2 : a = t <;> simp [h2, h3]
  · intro ha
    rw [compare_field]
    have hc : compare_numeric (.str s) (.num t) cfg.numeric_tolerance = false := by
      simp [compare_numeric, pyFloatOf, ha, pyEq, canon]
    rw [hc]
    simp

/-- Witness for C9: the numeric string "5.0" parses to 5 and matches truth 5
at tolerance 0, yielding a tp. -/
theorem c9_numeric_string_coercion_witness :
    pyFloatParse "5.0" = some 5 ∧
    compare_field (.str "5.0") (.num 5) cfgDefault = some ⟨1, 0, 0, none⟩ := by
  have hp : pyFloatParse "5.0" = some 5 := by
    simp [pyFloatParse, parseDecCore, Char.isDigit, Char.isWhitespace]
  refine ⟨hp, ?_⟩
  have h := (c9_numeric_string_coercion "5.0" 5 cfgDefault (by norm_num [cfgDefault])).1 5 hp
  rw [h]
  norm_num [cfgDefault]

/-- C10 (corrected), amended claim: when truth is a (hashable-element) list
and the comparison is unordered and non-fuzzy, a null automated is replaced
by the empty list — yielding `{tp:0, fp:0, fn:|set(truth)|}` — and a
non-list scalar automated is wrapped as a one-element list, so a scalar
equal to one element of the truth list yields
`{tp:1, fp:0, fn:|set(truth)| − 1}` (equal to n − 1 only when the n truth
elements are pairwise distinct). -/
theorem c10_list_scalar_null_coercion :
    (∀ (ts : List Value) (hs : List HashV) (tol : Rat),
        ts.mapM canon = some hs →
        compare_field .null (.list ts) ⟨tol, false, false⟩ =
          some ⟨0, 0, hs.dedup.length, none⟩) ∧
    (∀ (a : Value) (ha : HashV) (ts : List Value) (hs : List HashV) (tol : Rat),
        canon a = some ha → a ≠ .null → ts.mapM canon = some hs → ha ∈ hs.dedup →
        compare_field a (.list ts) ⟨tol, false, false⟩ =
          some ⟨1, 0, hs.dedup.length - 1, none⟩) := by
  constructor
  · intro ts hs tol hts
    rw [compare_field, compare_list]
    simp only [hts]
    simp [List.mapM, List.mapM.loop]
  · intro a ha ts hs tol hca hnull hts hmem
    have h1 : ([ha].dedup.filter (fun x => decide (x ∈ hs.dedup))).length = 1 := by
      simp [List.filter, hmem]
    have h2 : ([ha].dedup.filter (fun x => decide (x ∉ hs.dedup))).length = 0 := by
      simp [List.filter, hmem]
    have h3 : (hs.dedup.filter (fun x => decide (x ∉ [ha].dedup))).length =
        hs.dedup.length - 1 := by
      have hd1 : ([ha] : List HashV).dedup = [ha] := by simp
      rw [hd1]
      exact filter_ne_singleton_length hs.dedup ha (List.nodup_dedup hs) hmem
    cases a with
    | null => exact absurd rfl hnull
    | list xs => simp [canon] at hca
    | dict fs => simp [canon] at hca
    | bool b =>
      rw [compare_field, compare_list]
      simp only [hts, mapM_canon_single _ _ hca, h1, h2, h3, Bool.false_eq_true, if_false]
      all_goals simp
    | num q =>
      rw [compare_field, compare_list]
      simp only [hts, mapM_canon_single _ _ hca, h1, h2, h3, Bool.false_eq_true, if_false]
      all_goals simp
    | str s =>
      rw [compare_field, compare_list]
      simp only [hts, mapM_canon_single _ _ hca, h1, h2, h3, Bool.false_eq_true, if_false]
      all_goals simp

/-- C10 (corrected), counterexample: the claim predicts that a scalar
automated equal to one element of an n-element truth list yields
fn = n − 1.  With the duplicate truth list `["a","a"]` (n = 2) and automated
`"a"` the code yields fn = |set(truth)| − 1 = 0, not 1. -/
theorem c10_scalar_duplicate_truth_cex :
    compare_field (.str "a") (.list [.str "a", .str "a"]) cfgDefault ≠
      some ⟨1, 0, 1, none⟩ := by
  simp [compare_field, compare_list, canon, List.mapM, List.mapM.loop, List.dedup, cfgDefault]

/-- Witness for C10: automated scalar "b" against the distinct truth list
`["a","b","c"]` yields `{tp:1, fp:0, fn:2}`. -/
theorem c10_list_scalar_null_coercion_witness :
    compare_field (.str "b") (.list [.str "a", .str "b", .str "c"]) ⟨0, false, false⟩ =
      some ⟨1, 0, 2, none⟩ := by
  have h := c10_list_scalar_null_coercion.2 (.str "b") (.hstr "b")
    [.str "a", .str "b", .str "c"] [.hstr "a", .hstr "b", .hstr "c"] 0 rfl (by simp)
    (by simp [List.mapM, List.mapM.loop, canon]) (by decide)
  rw [h]
  decide

end PdfVal
